import Mathlib

/-!
# Verification of the NPS HR payroll engine

Shallow embedding of the monthly payroll computation of the NPS HR system
(`app.py`, function `generate_monthly_payroll`, together with the time
arithmetic helpers `_hours_between` in `app.py` and `hours_between` in
`core.py`).

Modelling choices:
* Python floats are modelled as exact rationals (`ℚ`); the payroll formulas
  are additions, multiplications and divisions, and `round(x, 2)` (pandas
  `.round(2)`) is modelled as round-half-to-even at two decimal places.
* Calendar dates are modelled as day ordinals (`Nat`); the SQL query
  `att_date >= month_start AND att_date < month_end AND signed_in = 1`
  becomes a list filter, and `days_in_month = (month_end - month_start).days`
  becomes `month_end - month_start`.
* A pandas `DataFrame` of payroll rows is a `List` of row structures; the
  `None` return for an empty worker table is the `noData` constructor.
-/

namespace NPS

/-- Policy constant `STANDARD_DAILY_HOURS = 9` from `app.py`. -/
def STANDARD_DAILY_HOURS : ℚ := 9

/-- Policy constant `OVERTIME_MULTIPLIER = 1.0` from `app.py`. -/
def OVERTIME_MULTIPLIER : ℚ := 1

/-- One row of the `workers` table (`id, worker_code, name, role, trade, salary`). -/
structure Worker where
  id : Nat
  worker_code : String
  name : String
  role : String
  trade : String
  salary : ℚ
deriving DecidableEq

/-- One row of the `attendance` table
(`worker_id, project_id, att_date, signed_in, time_in, time_out`). -/
structure AttRecord where
  worker_id : Nat
  project_id : Nat
  att_date : Nat
  signed_in : Bool
  time_in : Option String
  time_out : Option String
deriving DecidableEq

/-- Numeric value of a list of (would-be) digit characters: fails unless
every character is an ASCII digit. (`strptime` accepts only digits in the
`%H` and `%M` fields; non-ASCII decimal digits are out of scope.) -/
def digitsVal (cs : List Char) : Option Nat :=
  if cs.all Char.isDigit then
    some (cs.foldl (fun a c => a * 10 + (c.toNat - 48)) 0)
  else none

/-- Hour and minute components to minutes since midnight, enforcing
`0 ≤ HH ≤ 23` and `0 ≤ MM ≤ 59`. -/
def hmVal (hd md : List Char) : Option Nat :=
  match digitsVal hd, digitsVal md with
  | some hv, some mv =>
    if hv ≤ 23 ∧ mv ≤ 59 then some (hv * 60 + mv) else none
  | _, _ => none

/-- Embedding of `datetime.strptime(s, "%H:%M")`: on success, the parsed
time of day as minutes since midnight. The string must be exactly
one or two digits, a colon, and one or two digits, with hour at most 23
and minute at most 59; everything else fails (`strptime` raises, the
callers catch and return 0). -/
def parseHM (s : String) : Option Nat :=
  match s.data with
  | [a, ':', b] => hmVal [a] [b]
  | [a, ':', b, c] => hmVal [a] [b, c]
  | [a, b, ':', c] => hmVal [a, b] [c]
  | [a, b, ':', c, d] => hmVal [a, b] [c, d]
  | _ => none

/-- Python truthiness test `not s` for an `Optional[str]`:
`None` and the empty string are falsy. -/
def strFalsy : Option String → Bool
  | none => true
  | some s => s.isEmpty

/-- Embedding of `core.py` `hours_between(time_in, time_out)`: 0.0 when either input is
missing or unparseable, 0.0 when `time_out < time_in`, otherwise the
difference in hours (`(to - ti).total_seconds() / 3600`). -/
def hours_between (time_in time_out : Option String) : ℚ :=
  if strFalsy time_in || strFalsy time_out then 0
  else
    match parseHM (time_in.getD ""), parseHM (time_out.getD "") with
    | some ti, some tover =>
        if tover < ti then 0 else (((tover : ℚ) - (ti : ℚ)) * 60) / 3600
    | _, _ => 0

/-- Embedding of `app.py` `_hours_between(t_in, t_out)`: same as `core.py`'s
`hours_between` except the inverted-range case is handled by
`max(h, 0.0)` instead of an explicit comparison. -/
def app_hours_between (t_in t_out : Option String) : ℚ :=
  if strFalsy t_in || strFalsy t_out then 0
  else
    match parseHM (t_in.getD ""), parseHM (t_out.getD "") with
    | some ti, some tover => max ((((tover : ℚ) - (ti : ℚ)) * 60) / 3600) 0
    | _, _ => 0

/-- The minutes-since-midnight value a time argument parses to, if any:
`None`, the empty string and unparseable strings all yield `none`. -/
def parsedMinutes (t : Option String) : Option Nat :=
  t.bind parseHM

/-- The month filter of the attendance SQL query in `app.py`:
`att_date >= month_start AND att_date < month_end AND signed_in = 1`. -/
def monthAtt (ledger : List AttRecord) (month_start month_end : Nat) : List AttRecord :=
  ledger.filter fun r =>
    r.signed_in && decide (month_start ≤ r.att_date) && decide (r.att_date < month_end)

/-- Column `att["hours"]`: worked hours of one attendance record. -/
def recHours (r : AttRecord) : ℚ :=
  app_hours_between r.time_in r.time_out

/-- Column `att["ot_hours"] = max(hours - STANDARD_DAILY_HOURS, 0.0)`. -/
def recOT (r : AttRecord) : ℚ :=
  max (recHours r - STANDARD_DAILY_HOURS) 0

/-- The records of one worker inside an attendance slice (the
`groupby("worker_id")` group of `wid`). -/
def workerRecs (att : List AttRecord) (wid : Nat) : List AttRecord :=
  att.filter fun r => r.worker_id == wid

/-- Aggregate `days_present = ("att_date", "nunique")`: number of distinct attendance
dates of the worker in the slice. -/
def days_present_agg (att : List AttRecord) (wid : Nat) : Nat :=
  ((workerRecs att wid).map (·.att_date)).dedup.length

/-- Aggregate `total_hours = ("hours", "sum")`. -/
def total_hours_agg (att : List AttRecord) (wid : Nat) : ℚ :=
  ((workerRecs att wid).map recHours).sum

/-- Aggregate `overtime_hours = ("ot_hours", "sum")`. -/
def overtime_hours_agg (att : List AttRecord) (wid : Nat) : ℚ :=
  ((workerRecs att wid).map recOT).sum

/-- Round-half-to-even to an integer (the rounding of Python / numpy). -/
def roundHalfEven (q : ℚ) : ℤ :=
  if q - (⌊q⌋ : ℚ) < 1 / 2 then ⌊q⌋
  else if 1 / 2 < q - (⌊q⌋ : ℚ) then ⌊q⌋ + 1
  else if ⌊q⌋ % 2 = 0 then ⌊q⌋ else ⌊q⌋ + 1

/-- Python `round(x, 2)` / pandas `.round(2)`: round-half-to-even at two decimals. -/
def round2 (q : ℚ) : ℚ :=
  ((roundHalfEven (q * 100) : ℤ) : ℚ) / 100

/-- The `daily_rate / hourly_rate` base: `salary / (days_in_month * STANDARD_DAILY_HOURS)`. -/
def hourly_rate_calc (dim : Nat) (w : Worker) : ℚ :=
  w.salary / ((dim : ℚ) * STANDARD_DAILY_HOURS)

/-- Quantity `base_earned` (mode A) and `base_earned_total` (mode B):
`salary * (days_present_all / days_in_month)` over an attendance slice. -/
def base_earned_all (att : List AttRecord) (dim : Nat) (w : Worker) : ℚ :=
  w.salary * ((days_present_agg att w.id : ℚ) / (dim : ℚ))

/-- The helper `_base_share(row)` of `app.py`: zero when the company-wide
total hours are not positive, otherwise the company-wide base earnings
scaled by this project's share of hours. -/
def base_share_raw (att attP : List AttRecord) (dim : Nat) (w : Worker) : ℚ :=
  if total_hours_agg att w.id ≤ 0 then 0
  else base_earned_all att dim w * (total_hours_agg attP w.id / total_hours_agg att w.id)

/-- A company-wide (mode A) payroll row: the columns returned by
`generate_monthly_payroll(year, month)` in `app.py`. -/
structure RowA where
  worker_code : String
  name : String
  role : String
  trade : String
  salary : ℚ
  days_in_month : Nat
  days_present : Nat
  total_hours : ℚ
  overtime_hours : ℚ
  hourly_rate : ℚ
  overtime_pay : ℚ
  net_pay : ℚ
deriving DecidableEq

/-- A per-project (mode B) payroll row: the columns returned by
`generate_monthly_payroll(year, month, project_id)` in `app.py`. -/
structure RowB where
  worker_code : String
  name : String
  role : String
  trade : String
  salary : ℚ
  days_in_month : Nat
  days_present : Nat
  total_hours : ℚ
  overtime_hours : ℚ
  hourly_rate : ℚ
  base_share : ℚ
  overtime_pay : ℚ
  net_pay : ℚ
deriving DecidableEq

/-- The `att.empty` branch of `app.py`: all aggregates zero; note that the
source rounds nothing here, so `hourly_rate` is emitted unrounded. -/
def zeroRowA (dim : Nat) (w : Worker) : RowA :=
  { worker_code := w.worker_code
    name := w.name
    role := w.role
    trade := w.trade
    salary := w.salary
    days_in_month := dim
    days_present := 0
    total_hours := 0
    overtime_hours := 0
    hourly_rate := hourly_rate_calc dim w
    overtime_pay := 0
    net_pay := 0 }

/-- The mode A row of one worker (`app.py`, global-payroll branch):
pro-rated base pay plus overtime, the five hour/rate/pay columns rounded. -/
def rowA (att : List AttRecord) (dim : Nat) (w : Worker) : RowA :=
  let hr := hourly_rate_calc dim w
  let otp := hr * overtime_hours_agg att w.id * OVERTIME_MULTIPLIER
  { worker_code := w.worker_code
    name := w.name
    role := w.role
    trade := w.trade
    salary := w.salary
    days_in_month := dim
    days_present := days_present_agg att w.id
    total_hours := round2 (total_hours_agg att w.id)
    overtime_hours := round2 (overtime_hours_agg att w.id)
    hourly_rate := round2 hr
    overtime_pay := round2 otp
    net_pay := round2 (base_earned_all att dim w + otp) }

/-- The mode B row of one worker (`app.py`, per-project branch): project
aggregates, allocated base share, project-only overtime, all six
hour/rate/pay columns rounded. -/
def rowB (att attP : List AttRecord) (dim : Nat) (w : Worker) : RowB :=
  let hr := hourly_rate_calc dim w
  let share := base_share_raw att attP dim w
  let otp := hr * overtime_hours_agg attP w.id * OVERTIME_MULTIPLIER
  { worker_code := w.worker_code
    name := w.name
    role := w.role
    trade := w.trade
    salary := w.salary
    days_in_month := dim
    days_present := days_present_agg attP w.id
    total_hours := round2 (total_hours_agg attP w.id)
    overtime_hours := round2 (overtime_hours_agg attP w.id)
    hourly_rate := round2 hr
    base_share := round2 share
    overtime_pay := round2 otp
    net_pay := round2 (share + otp) }

/-- Result of `generate_monthly_payroll`: `noData` is the `None` return
(empty worker table), `rowsA` a company-wide shaped table, `rowsB` a
per-project shaped table (possibly empty, `pd.DataFrame()`). -/
inductive PayrollResult where
  | noData : PayrollResult
  | rowsA : List RowA → PayrollResult
  | rowsB : List RowB → PayrollResult
deriving DecidableEq

/-- Function `generate_monthly_payroll` of `app.py` (lines 368-566), over day-ordinal
month bounds. The branch order is the source's: empty worker table first,
then the empty-month-attendance fallback (which ignores `project_id`),
then mode A or mode B. -/
def generate_monthly_payroll (workers : List Worker) (ledger : List AttRecord)
    (month_start month_end : Nat) (project_id : Option Nat) : PayrollResult :=
  let dim := month_end - month_start
  if workers.isEmpty then .noData
  else
    let att := monthAtt ledger month_start month_end
    if att.isEmpty then .rowsA (workers.map (zeroRowA dim))
    else
      match project_id with
      | none => .rowsA (workers.map (rowA att dim))
      | some pid =>
        let attP := att.filter fun r => r.project_id == pid
        if attP.isEmpty then .rowsB []
        else
          .rowsB (((workers.filter fun w =>
            !(workerRecs attP w.id).isEmpty).map (rowB att attP dim)))

/-! ## Spec-side definitions

Transcriptions of the spec's formulas, used to state the refinement-style
claims; each is compared against the source-side computation above. -/

/-- Spec: the set of distinct present dates of a worker in an attendance
slice ("count of distinct present dates in the month"). -/
def presentDates (att : List AttRecord) (wid : Nat) : Finset Nat :=
  ((att.filter fun r => r.worker_id == wid).map (·.att_date)).toFinset

/-- Spec: `hourly_rate = salary / (days_in_month × standard_daily_hours)`. -/
def specHourlyRate (dim : Nat) (w : Worker) : ℚ :=
  w.salary / ((dim : ℚ) * STANDARD_DAILY_HOURS)

/-- Spec: `base_earned = salary × (days_present / days_in_month)` with
`days_present` the number of distinct present dates. -/
def specBaseEarned (att : List AttRecord) (dim : Nat) (w : Worker) : ℚ :=
  w.salary * (((presentDates att w.id).card : ℚ) / (dim : ℚ))

/-- Spec: `overtime_pay = hourly_rate × overtime_hours × overtime_multiplier`. -/
def specOvertimePay (att : List AttRecord) (dim : Nat) (w : Worker) : ℚ :=
  specHourlyRate dim w * overtime_hours_agg att w.id * OVERTIME_MULTIPLIER

/-- Spec: `base_share = base_earned_total × (project_hours / total_hours_all)`
with `base_share = 0` when `total_hours_all` is zero. -/
def specBaseShare (att attP : List AttRecord) (dim : Nat) (w : Worker) : ℚ :=
  if total_hours_agg att w.id = 0 then 0
  else specBaseEarned att dim w * (total_hours_agg attP w.id / total_hours_agg att w.id)

/-- A rational is an exact two-decimal (cent) value. -/
def isCents (q : ℚ) : Prop := (q * 100).den = 1

/-! ## Sample data for witnesses -/

/-- A sample worker, salary 3000. -/
def w0 : Worker := ⟨1, "NPS-W0001", "Alice", "Engineer", "Civil", 3000⟩

/-- A sample worker whose salary 5000 gives a non-cent hourly rate over a
30-day month (5000 / 270). -/
def w5000 : Worker := ⟨2, "NPS-W0002", "Bob", "Foreman", "Steel", 5000⟩

/-- A present record of worker 1 on project 1, 07:00-16:30 (9.5 hours). -/
def recP : AttRecord := ⟨1, 1, 5, true, some "07:00", some "16:30"⟩

/-- A present record of worker 1 on project 2, 07:00-16:30. -/
def recP2 : AttRecord := ⟨1, 2, 5, true, some "07:00", some "16:30"⟩

/-! ## Helper lemmas: time arithmetic -/

theorem parseHM_empty : parseHM "" = none := rfl

theorem parsedMinutes_of_falsy {t : Option String} (h : strFalsy t = true) :
    parsedMinutes t = none := by
  cases t with
  | none => rfl
  | some s =>
    simp only [strFalsy, String.isEmpty_iff] at h
    simp [parsedMinutes, h, parseHM_empty]

theorem parsedMinutes_some (s : String) :
    parsedMinutes (some s) = parseHM s := rfl

theorem hours_between_eq_app (t1 t2 : Option String) :
    hours_between t1 t2 = app_hours_between t1 t2 := by
  unfold hours_between app_hours_between
  split
  · rfl
  cases h1 : parseHM (t1.getD "") with
  | none => rfl
  | some ti =>
    cases h2 : parseHM (t2.getD "") with
    | none => rfl
    | some tover =>
      simp only
      by_cases h : tover < ti
      · rw [if_pos h, max_eq_right]
        have hq : (tover : ℚ) < (ti : ℚ) := by exact_mod_cast h
        nlinarith
      · rw [if_neg h, max_eq_left]
        have hq : (ti : ℚ) ≤ (tover : ℚ) := by exact_mod_cast Nat.le_of_not_lt h
        nlinarith

theorem app_hours_between_nonneg (t1 t2 : Option String) :
    0 ≤ app_hours_between t1 t2 := by
  unfold app_hours_between
  split
  · norm_num
  cases parseHM (t1.getD "") with
  | none => norm_num
  | some ti =>
    cases parseHM (t2.getD "") with
    | none => norm_num
    | some tover => exact le_max_right _ _

theorem recHours_nonneg (r : AttRecord) : 0 ≤ recHours r :=
  app_hours_between_nonneg _ _

theorem recOT_nonneg (r : AttRecord) : 0 ≤ recOT r :=
  le_max_right _ _

theorem total_hours_agg_nonneg (att : List AttRecord) (wid : Nat) :
    0 ≤ total_hours_agg att wid := by
  refine List.sum_nonneg fun x hx => ?_
  rcases List.mem_map.1 hx with ⟨r, _, rfl⟩
  exact recHours_nonneg r

theorem overtime_hours_agg_nonneg (att : List AttRecord) (wid : Nat) :
    0 ≤ overtime_hours_agg att wid := by
  refine List.sum_nonneg fun x hx => ?_
  rcases List.mem_map.1 hx with ⟨r, _, rfl⟩
  exact recOT_nonneg r

theorem days_present_agg_eq_card (att : List AttRecord) (wid : Nat) :
    days_present_agg att wid = (presentDates att wid).card :=
  (List.card_toFinset _).symm

theorem base_earned_all_eq_spec (att : List AttRecord) (dim : Nat) (w : Worker) :
    base_earned_all att dim w = specBaseEarned att dim w := by
  unfold base_earned_all specBaseEarned
  rw [days_present_agg_eq_card]

theorem base_share_raw_eq_spec (att attP : List AttRecord) (dim : Nat) (w : Worker) :
    base_share_raw att attP dim w = specBaseShare att attP dim w := by
  unfold base_share_raw specBaseShare
  have hnn := total_hours_agg_nonneg att w.id
  by_cases h : total_hours_agg att w.id = 0
  · rw [if_pos (by rw [h]), if_pos h]
  · rw [if_neg (by intro hle; exact h (le_antisymm hle hnn)), if_neg h,
      base_earned_all_eq_spec]

/-! ## Helper lemmas: rounding -/

theorem roundHalfEven_cases (q : ℚ) :
    roundHalfEven q = ⌊q⌋ ∨ roundHalfEven q = ⌊q⌋ + 1 := by
  unfold roundHalfEven
  split
  · exact Or.inl rfl
  split
  · exact Or.inr rfl
  split
  · exact Or.inl rfl
  · exact Or.inr rfl

theorem roundHalfEven_abs (q : ℚ) : |((roundHalfEven q : ℤ) : ℚ) - q| ≤ 1 / 2 := by
  have h1 : (⌊q⌋ : ℚ) ≤ q := Int.floor_le q
  have h2 : q < (⌊q⌋ : ℚ) + 1 := Int.lt_floor_add_one q
  unfold roundHalfEven
  split
  case isTrue h3 =>
    rw [abs_le]
    constructor <;> linarith
  case isFalse h3 =>
    push_neg at h3
    split
    case isTrue h4 =>
      push_cast
      rw [abs_le]
      constructor <;> linarith
    case isFalse h4 =>
      push_neg at h4
      have h5 : q - (⌊q⌋ : ℚ) = 1 / 2 := le_antisymm h4 h3
      split <;> (push_cast; rw [abs_le]; constructor <;> linarith)

theorem roundHalfEven_nonneg {q : ℚ} (h : 0 ≤ q) : 0 ≤ roundHalfEven q := by
  have hf : 0 ≤ ⌊q⌋ := Int.floor_nonneg.2 h
  rcases roundHalfEven_cases q with hc | hc <;> rw [hc] <;> omega

theorem round2_zero : round2 0 = 0 := by
  norm_num [round2, roundHalfEven]

theorem round2_nonneg {q : ℚ} (h : 0 ≤ q) : 0 ≤ round2 q := by
  have := roundHalfEven_nonneg (q := q * 100) (by positivity)
  unfold round2
  positivity

theorem round2_abs (q : ℚ) : |round2 q - q| ≤ 1 / 200 := by
  have h := roundHalfEven_abs (q * 100)
  unfold round2
  rw [abs_le] at h ⊢
  constructor <;> [linarith; linarith]

theorem isCents_round2 (q : ℚ) : isCents (round2 q) := by
  have h : round2 q * 100 = ((roundHalfEven (q * 100) : ℤ) : ℚ) := by
    unfold round2
    field_simp
  unfold isCents
  rw [h, Rat.den_intCast]

theorem isCents_iff (q : ℚ) : isCents q ↔ ∃ z : ℤ, q * 100 = (z : ℚ) := by
  constructor
  · intro h
    exact ⟨(q * 100).num, ((Rat.den_eq_one_iff _).1 h).symm⟩
  · rintro ⟨z, hz⟩
    unfold isCents
    rw [hz, Rat.den_intCast]

/-! ## Helper lemmas: partitioning a list sum by a key -/

theorem filter_key_eq_nil {α : Type} (L : List α) (key : α → Nat) (k : Nat)
    (h : k ∉ L.map key) : L.filter (fun a => key a == k) = [] := by
  induction L with
  | nil => rfl
  | cons a t ih =>
    simp only [List.map_cons, List.mem_cons, not_or] at h
    have hne : (key a == k) = false := by
      simp only [beq_eq_false_iff_ne, ne_eq]
      exact fun e => h.1 e.symm
    rw [List.filter_cons, hne]
    simpa using ih h.2

theorem sum_partition {α : Type} (key : α → Nat) (f : α → ℚ) (L : List α) :
    (∑ k ∈ (L.map key).toFinset, ((L.filter fun a => key a == k).map f).sum)
      = (L.map f).sum := by
  induction L with
  | nil => simp
  | cons a t ih =>
    have hsplit : ∀ k, (((a :: t).filter fun x => key x == k).map f).sum
        = (if k = key a then f a else 0) + ((t.filter fun x => key x == k).map f).sum := by
      intro k
      rw [List.filter_cons]
      by_cases h : key a = k
      · rw [if_pos (by simp [h]), if_pos h.symm]
        simp
      · rw [if_neg (by simp [h]), if_neg (fun e => h e.symm)]
        simp
    simp only [List.map_cons, List.toFinset_cons]
    rw [Finset.sum_congr rfl fun k _ => hsplit k, Finset.sum_add_distrib]
    rw [Finset.sum_ite_eq' (insert (key a) (t.map key).toFinset) (key a) (fun _ => f a)]
    rw [if_pos (Finset.mem_insert_self _ _), List.sum_cons]
    by_cases hmem : key a ∈ (t.map key).toFinset
    · rw [Finset.insert_eq_self.2 hmem, ih]
    · rw [Finset.sum_insert hmem]
      have hz : ((t.filter fun x => key x == key a).map f).sum = 0 := by
        rw [filter_key_eq_nil t key (key a) (by simpa using hmem)]
        rfl
      rw [hz, zero_add, ih]

/-! ## Helper lemmas: branch structure of `generate_monthly_payroll` -/

theorem generate_of_nil_workers (ledger : List AttRecord) (ms me : Nat)
    (pid : Option Nat) :
    generate_monthly_payroll [] ledger ms me pid = .noData := rfl

theorem generate_of_nil_att {workers : List Worker} {ledger : List AttRecord}
    {ms me : Nat} (pid : Option Nat) (hw : workers ≠ [])
    (hatt : monthAtt ledger ms me = []) :
    generate_monthly_payroll workers ledger ms me pid
      = .rowsA (workers.map (zeroRowA (me - ms))) := by
  have h1 : workers.isEmpty = false := by simp [List.isEmpty_iff, hw]
  simp [generate_monthly_payroll, h1, hatt]

theorem generate_modeA {workers : List Worker} {ledger : List AttRecord}
    {ms me : Nat} (hw : workers ≠ []) (hatt : monthAtt ledger ms me ≠ []) :
    generate_monthly_payroll workers ledger ms me none
      = .rowsA (workers.map (rowA (monthAtt ledger ms me) (me - ms))) := by
  have h1 : workers.isEmpty = false := by simp [List.isEmpty_iff, hw]
  have h2 : (monthAtt ledger ms me).isEmpty = false := by
    simp [List.isEmpty_iff, hatt]
  simp [generate_monthly_payroll, h1, h2]

theorem generate_modeB_nil {workers : List Worker} {ledger : List AttRecord}
    {ms me : Nat} {pid : Nat} (hw : workers ≠ [])
    (hatt : monthAtt ledger ms me ≠ [])
    (hp : (monthAtt ledger ms me).filter (fun r => r.project_id == pid) = []) :
    generate_monthly_payroll workers ledger ms me (some pid) = .rowsB [] := by
  have h1 : workers.isEmpty = false := by simp [List.isEmpty_iff, hw]
  have h2 : (monthAtt ledger ms me).isEmpty = false := by
    simp [List.isEmpty_iff, hatt]
  simp [generate_monthly_payroll, h1, h2, hp]

theorem generate_modeB {workers : List Worker} {ledger : List AttRecord}
    {ms me : Nat} {pid : Nat} (hw : workers ≠ [])
    (hatt : monthAtt ledger ms me ≠ [])
    (hp : (monthAtt ledger ms me).filter (fun r => r.project_id == pid) ≠ []) :
    generate_monthly_payroll workers ledger ms me (some pid)
      = .rowsB (((workers.filter fun w =>
          !(workerRecs ((monthAtt ledger ms me).filter
              (fun r => r.project_id == pid)) w.id).isEmpty).map
            (rowB (monthAtt ledger ms me)
              ((monthAtt ledger ms me).filter (fun r => r.project_id == pid))
              (me - ms)))) := by
  have h1 : workers.isEmpty = false := by simp [List.isEmpty_iff, hw]
  have h2 : (monthAtt ledger ms me).isEmpty = false := by
    simp [List.isEmpty_iff, hatt]
  have h3 : ((monthAtt ledger ms me).filter
      (fun r => r.project_id == pid)).isEmpty = false := by
    simp [List.isEmpty_iff, hp]
  simp [generate_monthly_payroll, h1, h2, h3]

theorem hours_between_parsed (t_in t_out : Option String) (x y : Nat)
    (hx : parsedMinutes t_in = some x) (hy : parsedMinutes t_out = some y) :
    hours_between t_in t_out
      = if y < x then 0 else (((y : ℚ) - (x : ℚ)) * 60) / 3600 := by
  cases t_in with
  | none => simp [parsedMinutes] at hx
  | some s =>
    cases t_out with
    | none => simp [parsedMinutes] at hy
    | some t =>
      have hs : strFalsy (some s) = false := by
        cases hc : strFalsy (some s) with
        | false => rfl
        | true => rw [parsedMinutes_of_falsy (t := some s) hc] at hx; cases hx
      have ht : strFalsy (some t) = false := by
        cases hc : strFalsy (some t) with
        | false => rfl
        | true => rw [parsedMinutes_of_falsy (t := some t) hc] at hy; cases hy
      rw [parsedMinutes_some] at hx hy
      unfold hours_between
      rw [if_neg (by simp [hs, ht])]
      simp only [Option.getD_some]
      rw [hx, hy]

/-! ## Claim theorems -/

/-- C4: for every pair of time inputs, if both parse as 24-hour `HH:MM` and
`time_out ≥ time_in`, the worked-hours computation returns exactly
`time_out − time_in` in hours; in every other case (either input missing or
unparseable, or `time_out` earlier than `time_in`) it returns 0; the
`core.py` and `app.py` variants agree on every input (totality of the
embedding models "never raises to the caller"). -/
theorem c4_hours_between_spec (t_in t_out : Option String) :
    hours_between t_in t_out = app_hours_between t_in t_out
    ∧ (∀ x y : Nat, parsedMinutes t_in = some x → parsedMinutes t_out = some y →
        x ≤ y → hours_between t_in t_out = ((y : ℚ) - (x : ℚ)) / 60)
    ∧ (∀ x y : Nat, parsedMinutes t_in = some x → parsedMinutes t_out = some y →
        y < x → hours_between t_in t_out = 0)
    ∧ ((parsedMinutes t_in = none ∨ parsedMinutes t_out = none) →
        hours_between t_in t_out = 0) := by
  refine ⟨hours_between_eq_app t_in t_out, ?_, ?_, ?_⟩
  · intro x y hx hy hle
    rw [hours_between_parsed t_in t_out x y hx hy, if_neg (not_lt.2 hle)]
    ring
  · intro x y hx hy hlt
    rw [hours_between_parsed t_in t_out x y hx hy, if_pos hlt]
  · intro h
    unfold hours_between
    by_cases hf : (strFalsy t_in || strFalsy t_out) = true
    · rw [if_pos hf]
    · rw [if_neg hf]
      rcases h with h | h
      · cases t_in with
        | none => simp [strFalsy] at hf
        | some s =>
          rw [parsedMinutes_some] at h
          simp only [Option.getD_some, h]
      · cases t_out with
        | none => simp [strFalsy] at hf
        | some t =>
          rw [parsedMinutes_some] at h
          simp only [Option.getD_some, h]
          cases parseHM (t_in.getD "") <;> rfl

/-- C4 witness: "07:00" to "16:30" parses to 420 and 990 minutes and yields
exactly 9.5 hours. -/
theorem c4_witness :
    parsedMinutes (some "07:00") = some 420
    ∧ parsedMinutes (some "16:30") = some 990
    ∧ hours_between (some "07:00") (some "16:30") = (((990 : ℚ) - 420) / 60) := by
  refine ⟨by decide, by decide, ?_⟩
  exact (c4_hours_between_spec (some "07:00") (some "16:30")).2.1 420 990
    (by decide) (by decide) (by decide)

/-- C1: in company-wide (mode A) payroll, every output row is computed from
its worker by the claimed formulas — `hourly_rate = salary / (days_in_month
× standard_daily_hours)`, `base_earned = salary × (days_present /
days_in_month)` with `days_present` the number of distinct present dates of
the worker in the month, `overtime_pay = hourly_rate × overtime_hours ×
overtime_multiplier`, and `net_pay = base_earned + overtime_pay`
(deductions 0). The emitted hour/rate/pay cells carry these values rounded
to two decimals (`hourly_rate` unrounded in the zero-attendance fallback,
hence the disjunction). -/
theorem c1_mode_a_formulas (workers : List Worker) (ledger : List AttRecord)
    (ms me : Nat) (_hm : ms < me) (rows : List RowA)
    (hres : generate_monthly_payroll workers ledger ms me none = .rowsA rows) :
    rows.length = workers.length
    ∧ ∀ i : Nat, ∀ w : Worker, ∀ r : RowA,
        workers[i]? = some w → rows[i]? = some r →
        r.salary = w.salary
        ∧ r.days_in_month = me - ms
        ∧ r.days_present = (presentDates (monthAtt ledger ms me) w.id).card
        ∧ r.total_hours = round2 (total_hours_agg (monthAtt ledger ms me) w.id)
        ∧ r.overtime_hours = round2 (overtime_hours_agg (monthAtt ledger ms me) w.id)
        ∧ (r.hourly_rate = round2 (specHourlyRate (me - ms) w)
            ∨ r.hourly_rate = specHourlyRate (me - ms) w)
        ∧ r.overtime_pay = round2 (specOvertimePay (monthAtt ledger ms me) (me - ms) w)
        ∧ r.net_pay = round2 (specBaseEarned (monthAtt ledger ms me) (me - ms) w
            + specOvertimePay (monthAtt ledger ms me) (me - ms) w) := by
  by_cases hw : workers = []
  · rw [hw, generate_of_nil_workers] at hres
    exact PayrollResult.noConfusion hres
  by_cases hatt : monthAtt ledger ms me = []
  · rw [generate_of_nil_att none hw hatt] at hres
    injection hres with hres
    subst hres
    refine ⟨by simp, ?_⟩
    intro i w r hwi hri
    rw [List.getElem?_map, hwi, Option.map_some'] at hri
    injection hri with hri
    subst hri
    have hz : workerRecs (monthAtt ledger ms me) w.id = [] := by
      rw [hatt]; rfl
    refine ⟨rfl, rfl, ?_, ?_, ?_, Or.inr rfl, ?_, ?_⟩
    · simp [zeroRowA, presentDates, hatt]
    · rw [show total_hours_agg (monthAtt ledger ms me) w.id = 0 by
        simp [total_hours_agg, hz], round2_zero]
      rfl
    · rw [show overtime_hours_agg (monthAtt ledger ms me) w.id = 0 by
        simp [overtime_hours_agg, hz], round2_zero]
      rfl
    · rw [show specOvertimePay (monthAtt ledger ms me) (me - ms) w = 0 by
        simp [specOvertimePay, overtime_hours_agg, hz], round2_zero]
      rfl
    · rw [show specBaseEarned (monthAtt ledger ms me) (me - ms) w = 0 by
        simp [specBaseEarned, presentDates, hatt],
        show specOvertimePay (monthAtt ledger ms me) (me - ms) w = 0 by
        simp [specOvertimePay, overtime_hours_agg, hz],
        add_zero, round2_zero]
      rfl
  · rw [generate_modeA hw hatt] at hres
    injection hres with hres
    subst hres
    refine ⟨by simp, ?_⟩
    intro i w r hwi hri
    rw [List.getElem?_map, hwi, Option.map_some'] at hri
    injection hri with hri
    subst hri
    refine ⟨rfl, rfl, ?_, rfl, rfl, Or.inl rfl, rfl, ?_⟩
    · exact days_present_agg_eq_card _ _
    · show round2 (base_earned_all (monthAtt ledger ms me) (me - ms) w
          + hourly_rate_calc (me - ms) w
            * overtime_hours_agg (monthAtt ledger ms me) w.id * OVERTIME_MULTIPLIER)
        = round2 (specBaseEarned (monthAtt ledger ms me) (me - ms) w
            + specOvertimePay (monthAtt ledger ms me) (me - ms) w)
      rw [base_earned_all_eq_spec]
      rfl

/-- C5: a worker in the directory with no present attendance in the month
still gets a company-wide payroll row, with all aggregates and pay fields
zero (the aggregation left-joins the directory). -/
theorem c5_left_join (workers : List Worker) (ledger : List AttRecord)
    (ms me : Nat) (w : Worker) (i : Nat) (_hm : ms < me)
    (hwi : workers[i]? = some w)
    (habs : workerRecs (monthAtt ledger ms me) w.id = []) :
    ∃ rows, generate_monthly_payroll workers ledger ms me none = .rowsA rows
      ∧ rows.length = workers.length
      ∧ ∃ r : RowA, rows[i]? = some r
          ∧ r.worker_code = w.worker_code ∧ r.salary = w.salary
          ∧ r.days_present = 0 ∧ r.total_hours = 0 ∧ r.overtime_hours = 0
          ∧ base_earned_all (monthAtt ledger ms me) (me - ms) w = 0
          ∧ r.overtime_pay = 0 ∧ r.net_pay = 0 := by
  have hw : workers ≠ [] := by
    intro h
    rw [h] at hwi
    simp at hwi
  have h1 : days_present_agg (monthAtt ledger ms me) w.id = 0 := by
    simp [days_present_agg, habs]
  have h2 : total_hours_agg (monthAtt ledger ms me) w.id = 0 := by
    simp [total_hours_agg, habs]
  have h3 : overtime_hours_agg (monthAtt ledger ms me) w.id = 0 := by
    simp [overtime_hours_agg, habs]
  have h4 : base_earned_all (monthAtt ledger ms me) (me - ms) w = 0 := by
    rw [base_earned_all, h1]
    simp
  by_cases hatt : monthAtt ledger ms me = []
  · refine ⟨_, generate_of_nil_att none hw hatt, by simp,
      zeroRowA (me - ms) w, ?_, rfl, rfl, rfl, rfl, rfl, h4, rfl, rfl⟩
    rw [List.getElem?_map, hwi, Option.map_some']
  · refine ⟨_, generate_modeA hw hatt, by simp,
      rowA (monthAtt ledger ms me) (me - ms) w, ?_, rfl, rfl, ?_, ?_, ?_, h4, ?_, ?_⟩
    · rw [List.getElem?_map, hwi, Option.map_some']
    · show days_present_agg (monthAtt ledger ms me) w.id = 0
      exact h1
    · show round2 (total_hours_agg (monthAtt ledger ms me) w.id) = 0
      rw [h2, round2_zero]
    · show round2 (overtime_hours_agg (monthAtt ledger ms me) w.id) = 0
      rw [h3, round2_zero]
    · show round2 (hourly_rate_calc (me - ms) w
          * overtime_hours_agg (monthAtt ledger ms me) w.id * OVERTIME_MULTIPLIER) = 0
      rw [h3, mul_zero, zero_mul, round2_zero]
    · show round2 (base_earned_all (monthAtt ledger ms me) (me - ms) w
          + hourly_rate_calc (me - ms) w
            * overtime_hours_agg (monthAtt ledger ms me) w.id * OVERTIME_MULTIPLIER) = 0
      rw [h4, h3, mul_zero, zero_mul, add_zero, round2_zero]

/-- C5 witness: one worker, empty ledger. -/
theorem c5_witness :
    ∃ rows, generate_monthly_payroll [w0] [] 0 30 none = PayrollResult.rowsA rows
      ∧ rows.length = ([w0] : List Worker).length
      ∧ ∃ r : RowA, rows[0]? = some r
          ∧ r.worker_code = w0.worker_code ∧ r.salary = w0.salary
          ∧ r.days_present = 0 ∧ r.total_hours = 0 ∧ r.overtime_hours = 0
          ∧ base_earned_all (monthAtt [] 0 30) (30 - 0) w0 = 0
          ∧ r.overtime_pay = 0 ∧ r.net_pay = 0 :=
  c5_left_join [w0] [] 0 30 w0 0 (by decide) rfl rfl

/-- C1 witness: one worker, empty ledger, a 30-day month. -/
theorem c1_witness :
    ([zeroRowA 30 w0] : List RowA).length = ([w0] : List Worker).length :=
  (c1_mode_a_formulas [w0] [] 0 30 (by decide) [zeroRowA 30 w0] rfl).1

/-- C2: in per-project (mode B) payroll, every output row belongs to a
directory worker and carries `base_share = base_earned_total ×
(project_hours / total_hours_all)` guarded to 0 when `total_hours_all` is
zero (the computation is total: no division error), overtime pay computed
from this project's overtime hours only, and `net_pay = base_share +
overtime_pay`, each rounded to two decimals in the emitted row. -/
theorem c2_mode_b_formulas (workers : List Worker) (ledger : List AttRecord)
    (ms me : Nat) (pid : Nat) (_hm : ms < me) (rows : List RowB)
    (hres : generate_monthly_payroll workers ledger ms me (some pid) = .rowsB rows) :
    ∀ r ∈ rows, ∃ w ∈ workers,
      r.salary = w.salary
      ∧ r.hourly_rate = round2 (specHourlyRate (me - ms) w)
      ∧ r.base_share = round2 (specBaseShare (monthAtt ledger ms me)
          ((monthAtt ledger ms me).filter fun a => a.project_id == pid) (me - ms) w)
      ∧ r.overtime_pay = round2 (specHourlyRate (me - ms) w
          * overtime_hours_agg
              ((monthAtt ledger ms me).filter fun a => a.project_id == pid) w.id
          * OVERTIME_MULTIPLIER)
      ∧ r.net_pay = round2 (specBaseShare (monthAtt ledger ms me)
          ((monthAtt ledger ms me).filter fun a => a.project_id == pid) (me - ms) w
          + specHourlyRate (me - ms) w
            * overtime_hours_agg
                ((monthAtt ledger ms me).filter fun a => a.project_id == pid) w.id
            * OVERTIME_MULTIPLIER) := by
  by_cases hw : workers = []
  · rw [hw, generate_of_nil_workers] at hres
    exact PayrollResult.noConfusion hres
  by_cases hatt : monthAtt ledger ms me = []
  · rw [generate_of_nil_att (some pid) hw hatt] at hres
    exact PayrollResult.noConfusion hres
  by_cases hp : (monthAtt ledger ms me).filter (fun r => r.project_id == pid) = []
  · rw [generate_modeB_nil hw hatt hp] at hres
    injection hres with hres
    subst hres
    intro r hr
    cases hr
  · rw [generate_modeB hw hatt hp] at hres
    injection hres with hres
    subst hres
    intro r hr
    rcases List.mem_map.1 hr with ⟨w, hwmem, rfl⟩
    refine ⟨w, (List.mem_filter.1 hwmem).1, rfl, rfl, ?_, rfl, ?_⟩
    · show round2 (base_share_raw (monthAtt ledger ms me)
          ((monthAtt ledger ms me).filter fun r => r.project_id == pid) (me - ms) w)
        = _
      rw [base_share_raw_eq_spec]
    · show round2 (base_share_raw (monthAtt ledger ms me)
          ((monthAtt ledger ms me).filter fun r => r.project_id == pid) (me - ms) w
          + hourly_rate_calc (me - ms) w
            * overtime_hours_agg
                ((monthAtt ledger ms me).filter fun r => r.project_id == pid) w.id
            * OVERTIME_MULTIPLIER)
        = _
      rw [base_share_raw_eq_spec]
      rfl

/-- C2 witness: one worker, one present record on project 1, scoped to
project 1. -/
theorem c2_witness :
    ∃ w ∈ ([w0] : List Worker),
      (rowB (monthAtt [recP] 0 30)
        ((monthAtt [recP] 0 30).filter fun r => r.project_id == 1) (30 - 0) w0).salary
        = w.salary
      ∧ (rowB (monthAtt [recP] 0 30)
          ((monthAtt [recP] 0 30).filter fun r => r.project_id == 1) (30 - 0) w0).hourly_rate
          = round2 (specHourlyRate (30 - 0) w)
      ∧ (rowB (monthAtt [recP] 0 30)
          ((monthAtt [recP] 0 30).filter fun r => r.project_id == 1) (30 - 0) w0).base_share
          = round2 (specBaseShare (monthAtt [recP] 0 30)
              ((monthAtt [recP] 0 30).filter fun a => a.project_id == 1) (30 - 0) w)
      ∧ (rowB (monthAtt [recP] 0 30)
          ((monthAtt [recP] 0 30).filter fun r => r.project_id == 1) (30 - 0) w0).overtime_pay
          = round2 (specHourlyRate (30 - 0) w
              * overtime_hours_agg
                  ((monthAtt [recP] 0 30).filter fun a => a.project_id == 1) w.id
              * OVERTIME_MULTIPLIER)
      ∧ (rowB (monthAtt [recP] 0 30)
          ((monthAtt [recP] 0 30).filter fun r => r.project_id == 1) (30 - 0) w0).net_pay
          = round2 (specBaseShare (monthAtt [recP] 0 30)
              ((monthAtt [recP] 0 30).filter fun a => a.project_id == 1) (30 - 0) w
              + specHourlyRate (30 - 0) w
                * overtime_hours_agg
                    ((monthAtt [recP] 0 30).filter fun a => a.project_id == 1) w.id
                * OVERTIME_MULTIPLIER) :=
  c2_mode_b_formulas [w0] [recP] 0 30 1 (by decide)
    [rowB (monthAtt [recP] 0 30)
      ((monthAtt [recP] 0 30).filter fun r => r.project_id == 1) (30 - 0) w0] rfl
    (rowB (monthAtt [recP] 0 30)
      ((monthAtt [recP] 0 30).filter fun r => r.project_id == 1) (30 - 0) w0)
    (List.mem_singleton_self _)

/-- C3: for a worker with positive company-wide hours in the month, the
per-project base shares over exactly the projects the worker worked sum to
the company-wide base earnings — exactly on the unrounded values, and
within half a cent per row on the rounded output cells. -/
theorem c3_base_share_conservation (ledger : List AttRecord) (ms me : Nat)
    (w : Worker)
    (hpos : 0 < total_hours_agg (monthAtt ledger ms me) w.id) :
    (∑ pid ∈ ((workerRecs (monthAtt ledger ms me) w.id).map (·.project_id)).toFinset,
        base_share_raw (monthAtt ledger ms me)
          ((monthAtt ledger ms me).filter fun r => r.project_id == pid) (me - ms) w)
      = base_earned_all (monthAtt ledger ms me) (me - ms) w
    ∧ |(∑ pid ∈ ((workerRecs (monthAtt ledger ms me) w.id).map (·.project_id)).toFinset,
          (rowB (monthAtt ledger ms me)
            ((monthAtt ledger ms me).filter fun r => r.project_id == pid)
            (me - ms) w).base_share)
        - base_earned_all (monthAtt ledger ms me) (me - ms) w|
      ≤ (((workerRecs (monthAtt ledger ms me) w.id).map (·.project_id)).toFinset.card : ℚ)
          / 200 := by
  have hnle : ¬ total_hours_agg (monthAtt ledger ms me) w.id ≤ 0 := not_le.2 hpos
  have hne : total_hours_agg (monthAtt ledger ms me) w.id ≠ 0 := ne_of_gt hpos
  have hfilters : ∀ pid : Nat,
      total_hours_agg ((monthAtt ledger ms me).filter fun r => r.project_id == pid) w.id
        = (((workerRecs (monthAtt ledger ms me) w.id).filter
            fun r => r.project_id == pid).map recHours).sum := by
    intro pid
    unfold total_hours_agg workerRecs
    rw [List.filter_filter, List.filter_filter]
    congr 2
    exact List.filter_congr fun a _ => Bool.and_comm _ _
  have hterm : ∀ pid : Nat,
      base_share_raw (monthAtt ledger ms me)
        ((monthAtt ledger ms me).filter fun r => r.project_id == pid) (me - ms) w
      = base_earned_all (monthAtt ledger ms me) (me - ms) w
          / total_hours_agg (monthAtt ledger ms me) w.id
        * (((workerRecs (monthAtt ledger ms me) w.id).filter
            fun r => r.project_id == pid).map recHours).sum := by
    intro pid
    rw [base_share_raw, if_neg hnle, hfilters pid]
    ring
  have hsum1 : (∑ pid ∈ ((workerRecs (monthAtt ledger ms me) w.id).map
        (·.project_id)).toFinset,
        base_share_raw (monthAtt ledger ms me)
          ((monthAtt ledger ms me).filter fun r => r.project_id == pid) (me - ms) w)
      = base_earned_all (monthAtt ledger ms me) (me - ms) w := by
    rw [Finset.sum_congr rfl fun pid _ => hterm pid, ← Finset.mul_sum,
      sum_partition (fun r => r.project_id) recHours
        (workerRecs (monthAtt ledger ms me) w.id),
      show ((workerRecs (monthAtt ledger ms me) w.id).map recHours).sum
        = total_hours_agg (monthAtt ledger ms me) w.id from rfl,
      div_mul_cancel₀ _ hne]
  refine ⟨hsum1, ?_⟩
  show |(∑ pid ∈ ((workerRecs (monthAtt ledger ms me) w.id).map
        (·.project_id)).toFinset,
        round2 (base_share_raw (monthAtt ledger ms me)
          ((monthAtt ledger ms me).filter fun r => r.project_id == pid) (me - ms) w))
      - base_earned_all (monthAtt ledger ms me) (me - ms) w| ≤ _
  rw [← hsum1, ← Finset.sum_sub_distrib]
  refine le_trans (Finset.abs_sum_le_sum_abs _ _) ?_
  refine le_trans (Finset.sum_le_card_nsmul _ _ (1 / 200) fun pid _ => round2_abs _) ?_
  rw [nsmul_eq_mul]
  exact le_of_eq (by ring)

/-- C3 witness: one worker with one 9.5-hour present record on project 1. -/
theorem c3_witness :
    0 < total_hours_agg (monthAtt [recP] 0 30) w0.id
    ∧ (∑ pid ∈ ((workerRecs (monthAtt [recP] 0 30) w0.id).map (·.project_id)).toFinset,
        base_share_raw (monthAtt [recP] 0 30)
          ((monthAtt [recP] 0 30).filter fun r => r.project_id == pid) (30 - 0) w0)
      = base_earned_all (monthAtt [recP] 0 30) (30 - 0) w0 := by
  have hA : monthAtt [recP] 0 30 = [recP] := by decide
  have hW : workerRecs [recP] w0.id = [recP] := by decide
  have hpos : 0 < total_hours_agg (monthAtt [recP] 0 30) w0.id := by
    rw [hA]
    unfold total_hours_agg
    rw [hW]
    simp only [List.map_cons, List.map_nil, List.sum_cons, List.sum_nil, add_zero]
    rw [show recHours recP = app_hours_between (some "07:00") (some "16:30") from rfl,
      ← hours_between_eq_app,
      hours_between_parsed _ _ 420 990 (by decide) (by decide)]
    norm_num
  exact ⟨hpos, (c3_base_share_conservation [recP] 0 30 w0 hpos).1⟩

/-- C6 counterexample: with an entirely empty month (so in particular zero
present attendance on project 1), the per-project call does not return an
empty row set — it falls into the company-wide zero-attendance fallback and
returns one company-wide-shaped row per worker. -/
theorem c6_counterexample :
    monthAtt [] 0 30 = []
    ∧ generate_monthly_payroll [w0] [] 0 30 (some 1)
        = PayrollResult.rowsA [zeroRowA 30 w0]
    ∧ generate_monthly_payroll [w0] [] 0 30 (some 1) ≠ PayrollResult.rowsB [] := by
  refine ⟨rfl, rfl, ?_⟩
  intro h
  rw [show generate_monthly_payroll [w0] [] 0 30 (some 1)
      = PayrollResult.rowsA [zeroRowA 30 w0] from rfl] at h
  exact PayrollResult.noConfusion h

/-- C6 amended: when the month has at least one present record, per-project
payroll returns one row per directory worker with at least one present
record on the project, and the empty row set when the project itself has no
present record; but when the entire month has no present records, the
per-project call falls back to the company-wide zero table — one all-zero
company-wide-shaped row per worker, exactly what the company-wide call
returns. -/
theorem c6_scope_asymmetry (workers : List Worker) (ledger : List AttRecord)
    (ms me : Nat) (pid : Nat) (_hm : ms < me) (hw : workers ≠ []) :
    (monthAtt ledger ms me ≠ [] →
      ((monthAtt ledger ms me).filter fun r => r.project_id == pid) = [] →
      generate_monthly_payroll workers ledger ms me (some pid)
        = PayrollResult.rowsB [])
    ∧ (((monthAtt ledger ms me).filter fun r => r.project_id == pid) ≠ [] →
      generate_monthly_payroll workers ledger ms me (some pid)
        = PayrollResult.rowsB ((workers.filter fun w =>
            !(workerRecs ((monthAtt ledger ms me).filter
                fun r => r.project_id == pid) w.id).isEmpty).map
          (rowB (monthAtt ledger ms me)
            ((monthAtt ledger ms me).filter fun r => r.project_id == pid) (me - ms))))
    ∧ (monthAtt ledger ms me = [] →
      generate_monthly_payroll workers ledger ms me (some pid)
        = PayrollResult.rowsA (workers.map (zeroRowA (me - ms)))
      ∧ generate_monthly_payroll workers ledger ms me none
        = PayrollResult.rowsA (workers.map (zeroRowA (me - ms)))) := by
  refine ⟨fun hatt hp => generate_modeB_nil hw hatt hp, fun hp => ?_,
    fun hatt => ⟨generate_of_nil_att _ hw hatt, generate_of_nil_att _ hw hatt⟩⟩
  have hatt : monthAtt ledger ms me ≠ [] := by
    intro h
    apply hp
    rw [h]
    rfl
  exact generate_modeB hw hatt hp

/-- C6 witness: a month with one present record on project 2 and no present
record on project 1 yields the empty row set for project 1. -/
theorem c6_witness :
    generate_monthly_payroll [w0] [recP2] 0 30 (some 1) = PayrollResult.rowsB [] :=
  (c6_scope_asymmetry [w0] [recP2] 0 30 1 (by decide) (by simp)).1
    (by decide) (by decide)

/-- C7 counterexample: in the zero-attendance fallback the emitted
`hourly_rate` is not rounded: with salary 5000 over a 30-day month the
output row carries exactly 5000/270, which is not a two-decimal value. -/
theorem c7_counterexample :
    generate_monthly_payroll [w5000] [] 0 30 none
      = PayrollResult.rowsA [zeroRowA 30 w5000]
    ∧ ¬ isCents ((zeroRowA 30 w5000).hourly_rate) := by
  refine ⟨rfl, ?_⟩
  intro h
  rw [isCents_iff] at h
  rcases h with ⟨z, hz⟩
  rw [show (zeroRowA 30 w5000).hourly_rate = (5000 : ℚ) / ((30 : ℚ) * 9) from rfl] at hz
  have h2 : (z : ℚ) * 270 = 500000 := by
    field_simp at hz
    linarith
  have h3 : z * 270 = 500000 := by exact_mod_cast h2
  omega

/-- C7 amended: whenever the month has at least one present record, every
emitted hour/rate/pay cell of either scope is an exact two-decimal (cent)
value, while salary and the day counts are exact copies of their sources;
only the zero-attendance fallback deviates, emitting `hourly_rate`
unrounded. -/
theorem c7_rounding (workers : List Worker) (ledger : List AttRecord)
    (ms me : Nat) (pid : Nat) (_hm : ms < me)
    (hatt : monthAtt ledger ms me ≠ []) :
    (∀ rows, generate_monthly_payroll workers ledger ms me none
        = PayrollResult.rowsA rows →
      ∀ r ∈ rows, isCents r.total_hours ∧ isCents r.overtime_hours
        ∧ isCents r.hourly_rate ∧ isCents r.overtime_pay ∧ isCents r.net_pay
        ∧ ∃ w ∈ workers, r.salary = w.salary ∧ r.days_in_month = me - ms
            ∧ r.days_present = days_present_agg (monthAtt ledger ms me) w.id)
    ∧ (∀ rows, generate_monthly_payroll workers ledger ms me (some pid)
        = PayrollResult.rowsB rows →
      ∀ r ∈ rows, isCents r.total_hours ∧ isCents r.overtime_hours
        ∧ isCents r.hourly_rate ∧ isCents r.base_share ∧ isCents r.overtime_pay
        ∧ isCents r.net_pay
        ∧ ∃ w ∈ workers, r.salary = w.salary ∧ r.days_in_month = me - ms) := by
  constructor
  · intro rows hres r hr
    by_cases hw : workers = []
    · rw [hw, generate_of_nil_workers] at hres
      exact PayrollResult.noConfusion hres
    rw [generate_modeA hw hatt] at hres
    injection hres with hres
    subst hres
    rcases List.mem_map.1 hr with ⟨w, hwmem, rfl⟩
    exact ⟨isCents_round2 _, isCents_round2 _, isCents_round2 _, isCents_round2 _,
      isCents_round2 _, w, hwmem, rfl, rfl, rfl⟩
  · intro rows hres r hr
    by_cases hw : workers = []
    · rw [hw, generate_of_nil_workers] at hres
      exact PayrollResult.noConfusion hres
    by_cases hp : (monthAtt ledger ms me).filter (fun r => r.project_id == pid) = []
    · rw [generate_modeB_nil hw hatt hp] at hres
      injection hres with hres
      subst hres
      cases hr
    rw [generate_modeB hw hatt hp] at hres
    injection hres with hres
    subst hres
    rcases List.mem_map.1 hr with ⟨w, hwmem, rfl⟩
    exact ⟨isCents_round2 _, isCents_round2 _, isCents_round2 _, isCents_round2 _,
      isCents_round2 _, isCents_round2 _, w, (List.mem_filter.1 hwmem).1, rfl, rfl⟩

/-- C7 witness: a month with one present record, company-wide row of the
single worker. -/
theorem c7_witness :
    isCents ((rowA (monthAtt [recP] 0 30) (30 - 0) w0).total_hours)
    ∧ isCents ((rowA (monthAtt [recP] 0 30) (30 - 0) w0).overtime_hours)
    ∧ isCents ((rowA (monthAtt [recP] 0 30) (30 - 0) w0).hourly_rate)
    ∧ isCents ((rowA (monthAtt [recP] 0 30) (30 - 0) w0).overtime_pay)
    ∧ isCents ((rowA (monthAtt [recP] 0 30) (30 - 0) w0).net_pay)
    ∧ ∃ w ∈ ([w0] : List Worker),
        (rowA (monthAtt [recP] 0 30) (30 - 0) w0).salary = w.salary
        ∧ (rowA (monthAtt [recP] 0 30) (30 - 0) w0).days_in_month = 30 - 0
        ∧ (rowA (monthAtt [recP] 0 30) (30 - 0) w0).days_present
            = days_present_agg (monthAtt [recP] 0 30) w.id :=
  (c7_rounding [w0] [recP] 0 30 1 (by decide) (by decide)).1
    [rowA (monthAtt [recP] 0 30) (30 - 0) w0] rfl _ (List.mem_singleton_self _)

/-- C8: an empty worker directory yields the `None` ("no payroll data")
sentinel, a non-empty directory never does, and the sentinel is
distinguishable from the empty per-project row set. -/
theorem c8_no_data_sentinel (ledger : List AttRecord) (ms me : Nat)
    (pid : Option Nat) :
    generate_monthly_payroll [] ledger ms me pid = PayrollResult.noData
    ∧ (∀ workers : List Worker, workers ≠ [] →
        generate_monthly_payroll workers ledger ms me pid ≠ PayrollResult.noData)
    ∧ PayrollResult.noData ≠ PayrollResult.rowsB [] := by
  refine ⟨rfl, ?_, fun h => PayrollResult.noConfusion h⟩
  intro workers hw
  by_cases hatt : monthAtt ledger ms me = []
  · rw [generate_of_nil_att pid hw hatt]
    exact fun h => PayrollResult.noConfusion h
  · cases pid with
    | none =>
      rw [generate_modeA hw hatt]
      exact fun h => PayrollResult.noConfusion h
    | some p =>
      by_cases hp : (monthAtt ledger ms me).filter (fun r => r.project_id == p) = []
      · rw [generate_modeB_nil hw hatt hp]
        exact fun h => PayrollResult.noConfusion h
      · rw [generate_modeB hw hatt hp]
        exact fun h => PayrollResult.noConfusion h

/-- C8 witness: empty directory gives the sentinel; a one-worker directory
never does. -/
theorem c8_witness :
    generate_monthly_payroll [] [] 0 30 none = PayrollResult.noData
    ∧ generate_monthly_payroll [w0] [] 0 30 none ≠ PayrollResult.noData :=
  ⟨(c8_no_data_sentinel [] 0 30 none).1,
    (c8_no_data_sentinel [] 0 30 none).2.1 [w0] (by simp)⟩

theorem zero_salary_fields (att attP : List AttRecord) (dim : Nat) (w : Worker)
    (h : w.salary = 0) :
    hourly_rate_calc dim w = 0 ∧ base_earned_all att dim w = 0
      ∧ base_share_raw att attP dim w = 0 := by
  have h1 : hourly_rate_calc dim w = 0 := by rw [hourly_rate_calc, h, zero_div]
  have h2 : base_earned_all att dim w = 0 := by rw [base_earned_all, h, zero_mul]
  refine ⟨h1, h2, ?_⟩
  rw [base_share_raw]
  split
  · rfl
  · rw [h2, zero_mul]

/-- C9: a worker with zero monthly salary receives zero pay in every payroll
row of either scope — hourly rate, base earnings (base share), overtime pay
and net pay are all 0, regardless of attendance. -/
theorem c9_zero_salary (workers : List Worker) (ledger : List AttRecord)
    (ms me : Nat) (pid : Option Nat) :
    (∀ rows, generate_monthly_payroll workers ledger ms me pid
        = PayrollResult.rowsA rows →
      ∀ r ∈ rows, r.salary = 0 →
        r.hourly_rate = 0 ∧ r.overtime_pay = 0 ∧ r.net_pay = 0
        ∧ ∃ w ∈ workers, r.salary = w.salary
            ∧ base_earned_all (monthAtt ledger ms me) (me - ms) w = 0)
    ∧ (∀ rows, generate_monthly_payroll workers ledger ms me pid
        = PayrollResult.rowsB rows →
      ∀ r ∈ rows, r.salary = 0 →
        r.hourly_rate = 0 ∧ r.base_share = 0 ∧ r.overtime_pay = 0
          ∧ r.net_pay = 0) := by
  constructor
  · intro rows hres r hr hsal
    by_cases hw : workers = []
    · rw [hw, generate_of_nil_workers] at hres
      exact PayrollResult.noConfusion hres
    by_cases hatt : monthAtt ledger ms me = []
    · rw [generate_of_nil_att pid hw hatt] at hres
      injection hres with hres
      subst hres
      rcases List.mem_map.1 hr with ⟨w, hwmem, rfl⟩
      have hws : w.salary = 0 := hsal
      obtain ⟨h1, h2, -⟩ := zero_salary_fields (monthAtt ledger ms me)
        (monthAtt ledger ms me) (me - ms) w hws
      exact ⟨h1, rfl, rfl, w, hwmem, rfl, h2⟩
    cases pid with
    | some p =>
      by_cases hp : (monthAtt ledger ms me).filter (fun a => a.project_id == p) = []
      · rw [generate_modeB_nil hw hatt hp] at hres
        exact PayrollResult.noConfusion hres
      · rw [generate_modeB hw hatt hp] at hres
        exact PayrollResult.noConfusion hres
    | none =>
      rw [generate_modeA hw hatt] at hres
      injection hres with hres
      subst hres
      rcases List.mem_map.1 hr with ⟨w, hwmem, rfl⟩
      have hws : w.salary = 0 := hsal
      obtain ⟨h1, h2, -⟩ := zero_salary_fields (monthAtt ledger ms me)
        (monthAtt ledger ms me) (me - ms) w hws
      refine ⟨?_, ?_, ?_, w, hwmem, rfl, h2⟩
      · show round2 (hourly_rate_calc (me - ms) w) = 0
        rw [h1, round2_zero]
      · show round2 (hourly_rate_calc (me - ms) w
            * overtime_hours_agg (monthAtt ledger ms me) w.id * OVERTIME_MULTIPLIER) = 0
        rw [h1, zero_mul, zero_mul, round2_zero]
      · show round2 (base_earned_all (monthAtt ledger ms me) (me - ms) w
            + hourly_rate_calc (me - ms) w
              * overtime_hours_agg (monthAtt ledger ms me) w.id * OVERTIME_MULTIPLIER) = 0
        rw [h1, h2, zero_mul, zero_mul, add_zero, round2_zero]
  · intro rows hres r hr hsal
    by_cases hw : workers = []
    · rw [hw, generate_of_nil_workers] at hres
      exact PayrollResult.noConfusion hres
    by_cases hatt : monthAtt ledger ms me = []
    · rw [generate_of_nil_att pid hw hatt] at hres
      exact PayrollResult.noConfusion hres
    cases pid with
    | none =>
      rw [generate_modeA hw hatt] at hres
      exact PayrollResult.noConfusion hres
    | some p =>
      by_cases hp : (monthAtt ledger ms me).filter (fun a => a.project_id == p) = []
      · rw [generate_modeB_nil hw hatt hp] at hres
        injection hres with hres
        subst hres
        cases hr
      rw [generate_modeB hw hatt hp] at hres
      injection hres with hres
      subst hres
      rcases List.mem_map.1 hr with ⟨w, hwmem, rfl⟩
      have hws : w.salary = 0 := hsal
      obtain ⟨h1, h2, h3⟩ := zero_salary_fields (monthAtt ledger ms me)
        ((monthAtt ledger ms me).filter fun a => a.project_id == p) (me - ms) w hws
      refine ⟨?_, ?_, ?_, ?_⟩
      · show round2 (hourly_rate_calc (me - ms) w) = 0
        rw [h1, round2_zero]
      · show round2 (base_share_raw (monthAtt ledger ms me)
            ((monthAtt ledger ms me).filter fun a => a.project_id == p) (me - ms) w) = 0
        rw [h3, round2_zero]
      · show round2 (hourly_rate_calc (me - ms) w
            * overtime_hours_agg
                ((monthAtt ledger ms me).filter fun a => a.project_id == p) w.id
            * OVERTIME_MULTIPLIER) = 0
        rw [h1, zero_mul, zero_mul, round2_zero]
      · show round2 (base_share_raw (monthAtt ledger ms me)
            ((monthAtt ledger ms me).filter fun a => a.project_id == p) (me - ms) w
            + hourly_rate_calc (me - ms) w
              * overtime_hours_agg
                  ((monthAtt ledger ms me).filter fun a => a.project_id == p) w.id
              * OVERTIME_MULTIPLIER) = 0
        rw [h1, h3, zero_mul, zero_mul, add_zero, round2_zero]

/-- C9 witness: a zero-salary worker over an empty ledger. -/
theorem c9_witness :
    (zeroRowA 30 ⟨3, "NPS-W0003", "Z", "", "", 0⟩).hourly_rate = 0
    ∧ (zeroRowA 30 ⟨3, "NPS-W0003", "Z", "", "", 0⟩).overtime_pay = 0
    ∧ (zeroRowA 30 ⟨3, "NPS-W0003", "Z", "", "", 0⟩).net_pay = 0 := by
  have h := (c9_zero_salary [⟨3, "NPS-W0003", "Z", "", "", 0⟩] [] 0 30 none).1
    [zeroRowA 30 ⟨3, "NPS-W0003", "Z", "", "", 0⟩] rfl
    (zeroRowA 30 ⟨3, "NPS-W0003", "Z", "", "", 0⟩) (List.mem_singleton_self _)
    (by show (0 : ℚ) = 0; rfl)
  exact ⟨h.1, h.2.1, h.2.2.1⟩

theorem hourly_rate_calc_nonneg (dim : Nat) (w : Worker) (h : 0 ≤ w.salary) :
    0 ≤ hourly_rate_calc dim w :=
  div_nonneg h (mul_nonneg (Nat.cast_nonneg dim) (by norm_num [STANDARD_DAILY_HOURS]))

theorem base_earned_all_nonneg (att : List AttRecord) (dim : Nat) (w : Worker)
    (h : 0 ≤ w.salary) : 0 ≤ base_earned_all att dim w :=
  mul_nonneg h (div_nonneg (Nat.cast_nonneg _) (Nat.cast_nonneg _))

theorem base_share_raw_nonneg (att attP : List AttRecord) (dim : Nat) (w : Worker)
    (h : 0 ≤ w.salary) : 0 ≤ base_share_raw att attP dim w := by
  rw [base_share_raw]
  split
  · exact le_refl 0
  · exact mul_nonneg (base_earned_all_nonneg att dim w h)
      (div_nonneg (total_hours_agg_nonneg attP w.id) (total_hours_agg_nonneg att w.id))

theorem overtime_multiplier_nonneg : (0 : ℚ) ≤ OVERTIME_MULTIPLIER := by
  norm_num [OVERTIME_MULTIPLIER]

theorem zeroRowA_fields_nonneg (dim : Nat) (w : Worker) (h : 0 ≤ w.salary) :
    0 ≤ (zeroRowA dim w).salary ∧ 0 ≤ (zeroRowA dim w).total_hours
    ∧ 0 ≤ (zeroRowA dim w).overtime_hours ∧ 0 ≤ (zeroRowA dim w).hourly_rate
    ∧ 0 ≤ (zeroRowA dim w).overtime_pay ∧ 0 ≤ (zeroRowA dim w).net_pay :=
  ⟨h, le_refl 0, le_refl 0, hourly_rate_calc_nonneg dim w h, le_refl 0, le_refl 0⟩

theorem rowA_fields_nonneg (att : List AttRecord) (dim : Nat) (w : Worker)
    (h : 0 ≤ w.salary) :
    0 ≤ (rowA att dim w).salary ∧ 0 ≤ (rowA att dim w).total_hours
    ∧ 0 ≤ (rowA att dim w).overtime_hours ∧ 0 ≤ (rowA att dim w).hourly_rate
    ∧ 0 ≤ (rowA att dim w).overtime_pay ∧ 0 ≤ (rowA att dim w).net_pay := by
  have hhr := hourly_rate_calc_nonneg dim w h
  have hot := overtime_hours_agg_nonneg att w.id
  have hotp := mul_nonneg (mul_nonneg hhr hot) overtime_multiplier_nonneg
  exact ⟨h, round2_nonneg (total_hours_agg_nonneg att w.id), round2_nonneg hot,
    round2_nonneg hhr, round2_nonneg hotp,
    round2_nonneg (add_nonneg (base_earned_all_nonneg att dim w h) hotp)⟩

theorem rowB_fields_nonneg (att attP : List AttRecord) (dim : Nat) (w : Worker)
    (h : 0 ≤ w.salary) :
    0 ≤ (rowB att attP dim w).salary ∧ 0 ≤ (rowB att attP dim w).total_hours
    ∧ 0 ≤ (rowB att attP dim w).overtime_hours
    ∧ 0 ≤ (rowB att attP dim w).hourly_rate
    ∧ 0 ≤ (rowB att attP dim w).base_share
    ∧ 0 ≤ (rowB att attP dim w).overtime_pay
    ∧ 0 ≤ (rowB att attP dim w).net_pay := by
  have hhr := hourly_rate_calc_nonneg dim w h
  have hot := overtime_hours_agg_nonneg attP w.id
  have hotp := mul_nonneg (mul_nonneg hhr hot) overtime_multiplier_nonneg
  have hsh := base_share_raw_nonneg att attP dim w h
  exact ⟨h, round2_nonneg (total_hours_agg_nonneg attP w.id), round2_nonneg hot,
    round2_nonneg hhr, round2_nonneg hsh, round2_nonneg hotp,
    round2_nonneg (add_nonneg hsh hotp)⟩

/-- C10 (implicit): with all salaries non-negative, every numeric field of
every payroll row of either scope is non-negative — per-record worked and
overtime hours are clamped at 0, and every rate/pay cell is a product, sum
or quotient of non-negative values, so no row can show negative pay. -/
theorem c10_nonneg (workers : List Worker) (ledger : List AttRecord)
    (ms me : Nat) (pid : Option Nat)
    (hsal : ∀ w ∈ workers, 0 ≤ w.salary) :
    (∀ rec : AttRecord, 0 ≤ recHours rec ∧ 0 ≤ recOT rec)
    ∧ (∀ rows, generate_monthly_payroll workers ledger ms me pid
        = PayrollResult.rowsA rows →
      ∀ r ∈ rows, 0 ≤ r.salary ∧ 0 ≤ r.total_hours ∧ 0 ≤ r.overtime_hours
        ∧ 0 ≤ r.hourly_rate ∧ 0 ≤ r.overtime_pay ∧ 0 ≤ r.net_pay)
    ∧ (∀ rows, generate_monthly_payroll workers ledger ms me pid
        = PayrollResult.rowsB rows →
      ∀ r ∈ rows, 0 ≤ r.salary ∧ 0 ≤ r.total_hours ∧ 0 ≤ r.overtime_hours
        ∧ 0 ≤ r.hourly_rate ∧ 0 ≤ r.base_share ∧ 0 ≤ r.overtime_pay
        ∧ 0 ≤ r.net_pay) := by
  refine ⟨fun rec => ⟨recHours_nonneg rec, recOT_nonneg rec⟩, ?_, ?_⟩
  · intro rows hres r hr
    by_cases hw : workers = []
    · rw [hw, generate_of_nil_workers] at hres
      exact PayrollResult.noConfusion hres
    by_cases hatt : monthAtt ledger ms me = []
    · rw [generate_of_nil_att pid hw hatt] at hres
      injection hres with hres
      subst hres
      rcases List.mem_map.1 hr with ⟨w, hwmem, rfl⟩
      exact zeroRowA_fields_nonneg (me - ms) w (hsal w hwmem)
    cases pid with
    | some p =>
      by_cases hp : (monthAtt ledger ms me).filter (fun a => a.project_id == p) = []
      · rw [generate_modeB_nil hw hatt hp] at hres
        exact PayrollResult.noConfusion hres
      · rw [generate_modeB hw hatt hp] at hres
        exact PayrollResult.noConfusion hres
    | none =>
      rw [generate_modeA hw hatt] at hres
      injection hres with hres
      subst hres
      rcases List.mem_map.1 hr with ⟨w, hwmem, rfl⟩
      exact rowA_fields_nonneg (monthAtt ledger ms me) (me - ms) w (hsal w hwmem)
  · intro rows hres r hr
    by_cases hw : workers = []
    · rw [hw, generate_of_nil_workers] at hres
      exact PayrollResult.noConfusion hres
    by_cases hatt : monthAtt ledger ms me = []
    · rw [generate_of_nil_att pid hw hatt] at hres
      exact PayrollResult.noConfusion hres
    cases pid with
    | none =>
      rw [generate_modeA hw hatt] at hres
      exact PayrollResult.noConfusion hres
    | some p =>
      by_cases hp : (monthAtt ledger ms me).filter (fun a => a.project_id == p) = []
      · rw [generate_modeB_nil hw hatt hp] at hres
        injection hres with hres
        subst hres
        cases hr
      rw [generate_modeB hw hatt hp] at hres
      injection hres with hres
      subst hres
      rcases List.mem_map.1 hr with ⟨w, hwmem, rfl⟩
      exact rowB_fields_nonneg (monthAtt ledger ms me)
        ((monthAtt ledger ms me).filter fun a => a.project_id == p) (me - ms) w
        (hsal w (List.mem_filter.1 hwmem).1)

/-- C10 witness: single worker with salary 3000, empty ledger. -/
theorem c10_witness :
    0 ≤ (zeroRowA 30 w0).salary ∧ 0 ≤ (zeroRowA 30 w0).total_hours
    ∧ 0 ≤ (zeroRowA 30 w0).overtime_hours ∧ 0 ≤ (zeroRowA 30 w0).hourly_rate
    ∧ 0 ≤ (zeroRowA 30 w0).overtime_pay ∧ 0 ≤ (zeroRowA 30 w0).net_pay :=
  (c10_nonneg [w0] [] 0 30 none
      (by intro w hw; rw [List.mem_singleton] at hw; subst hw; decide)).2.1
    [zeroRowA 30 w0] rfl _ (List.mem_singleton_self _)

end NPS
